import Mathlib

/-!
Formal model of the md-server repository (`server.ts`, `claude.ts`,
`protocol.ts`): the document/asset HTTP handler with its access-control and
symlink-confinement logic, the WebSocket admission gate, the auth handshake,
and the turn relay to the upstream agent.  JavaScript strings are modelled as
`List Char`; JavaScript's `String.prototype.startsWith` and `includes` become
boolean functions on character lists; `Record` objects become association
lists; functions that can throw return `Option`/`Except`.
-/

/-- JavaScript strings, modelled as lists of characters. -/
abbrev JSStr := List Char

/-- Boolean prefix test on lists: `isPrefB p l` is true when `p` is a textual
prefix of `l`.  `l.startsWith p` in JavaScript is `isPrefB p l`. -/
def isPrefB [BEq α] : List α → List α → Bool
  | [], _ => true
  | _ :: _, [] => false
  | a :: as, b :: bs => a == b && isPrefB as bs

/-- JS `s.startsWith(p)`. -/
def jsStartsWith (s p : JSStr) : Bool := isPrefB p s

/-- Render an absolute path from its list of components, e.g. rendering the
components docs, a.md yields the characters of /docs/a.md.  This is
the canonical form produced by `realpath` for non-root paths. -/
def renderPath (comps : List JSStr) : JSStr :=
  comps.foldr (fun c acc => '/' :: (c ++ acc)) []

/-- A component list is in canonical form when no component contains the
path separator. -/
def SlashFreeComps (comps : List JSStr) : Prop := ∀ c ∈ comps, ('/' : Char) ∉ c

instance slashFreeDecidable (comps : List JSStr) : Decidable (SlashFreeComps comps) :=
  inferInstanceAs (Decidable (∀ c ∈ comps, ('/' : Char) ∉ c))

/-- Component-wise strict-descendant test: `root` is a proper ancestor of
`p` (as component lists). -/
def strictDescOf (root p : List JSStr) : Bool := isPrefB root p && !(root == p)

theorem renderPath_nil : renderPath [] = [] := rfl

theorem renderPath_cons (c : JSStr) (l : List JSStr) :
    renderPath (c :: l) = '/' :: (c ++ renderPath l) := rfl

theorem isPrefB_iff [BEq α] [LawfulBEq α] (p l : List α) :
    isPrefB p l = true ↔ ∃ t, l = p ++ t := by
  induction p generalizing l with
  | nil => simp [isPrefB]
  | cons a as ih =>
    cases l with
    | nil => simp [isPrefB]
    | cons b bs =>
      simp only [isPrefB, Bool.and_eq_true, beq_iff_eq, ih]
      constructor
      · rintro ⟨rfl, t, rfl⟩
        exact ⟨t, rfl⟩
      · rintro ⟨t, h⟩
        injection h with h1 h2
        exact ⟨h1.symm, t, h2⟩

/-- Splitting lemma for slash-free tokens: if two strings both consisting of a
slash-free token followed by `'/'` and a tail are equal, the tokens and the
tails agree. -/
theorem slash_split (c : JSStr) :
    ∀ (e u v : JSStr), ('/' : Char) ∉ c → ('/' : Char) ∉ e →
      c ++ '/' :: u = e ++ '/' :: v → c = e ∧ u = v := by
  induction c with
  | nil =>
    intro e u v _ he h
    cases e with
    | nil => simpa using h
    | cons y e' =>
      simp only [List.nil_append, List.cons_append] at h
      injection h with h1 _
      rw [← h1] at he
      simp at he
  | cons x c' ih =>
    intro e u v hc he h
    cases e with
    | nil =>
      simp only [List.cons_append, List.nil_append] at h
      injection h with h1 _
      rw [h1] at hc
      simp at hc
    | cons y e' =>
      simp only [List.cons_append] at h
      injection h with h1 h2
      have hc' : ('/' : Char) ∉ c' := fun hm => hc (List.mem_cons_of_mem _ hm)
      have he' : ('/' : Char) ∉ e' := fun hm => he (List.mem_cons_of_mem _ hm)
      obtain ⟨hce, huv⟩ := ih e' u v hc' he' h2
      exact ⟨by rw [h1, hce], huv⟩

/-- Core confinement lemma: if the rendered form of `r` starts with the
rendered form of `d` followed by a separator, then `d` is a strict component
prefix of `r` (no sibling-directory false positives), provided components are
slash-free. -/
theorem render_desc (d : List JSStr) :
    ∀ (r : List JSStr), SlashFreeComps d → SlashFreeComps r →
      (∃ t, renderPath r = (renderPath d ++ ['/']) ++ t) →
      (∃ t, r = d ++ t) ∧ d ≠ r := by
  induction d with
  | nil =>
    intro r _ _ h
    obtain ⟨t, ht⟩ := h
    cases r with
    | nil => simp [renderPath] at ht
    | cons e r' => exact ⟨⟨e :: r', rfl⟩, by simp⟩
  | cons c d' ih =>
    intro r hd hr h
    obtain ⟨t, ht⟩ := h
    cases r with
    | nil => simp [renderPath] at ht
    | cons e r' =>
      have hdc : ('/' : Char) ∉ c := hd c (List.mem_cons_self c d')
      have hd' : SlashFreeComps d' := fun x hx => hd x (List.mem_cons_of_mem c hx)
      have hre : ('/' : Char) ∉ e := hr e (List.mem_cons_self e r')
      have hr' : SlashFreeComps r' := fun x hx => hr x (List.mem_cons_of_mem e hx)
      rw [renderPath_cons, renderPath_cons] at ht
      simp only [List.cons_append, List.append_assoc] at ht
      injection ht with _ ht2
      -- ht2 : e ++ renderPath r' = c ++ (renderPath d' ++ '/' :: t)
      have hA : ∃ w, renderPath d' ++ '/' :: t = '/' :: w := by
        cases d' with
        | nil => exact ⟨t, by simp [renderPath]⟩
        | cons g d'' =>
          exact ⟨g ++ renderPath d'' ++ '/' :: t, by
            rw [renderPath_cons]; simp⟩
      obtain ⟨w, hw⟩ := hA
      simp only [List.nil_append, renderPath_nil, renderPath_cons, List.append_nil] at ht2
      rw [hw] at ht2
      cases r' with
      | nil =>
        -- e = c ++ '/' :: w, so '/' ∈ e: contradiction
        simp only [renderPath_nil, List.append_nil] at ht2
        have : ('/' : Char) ∈ e := by
          rw [ht2]
          exact List.mem_append_right c (List.mem_cons_self _ _)
        exact absurd this hre
      | cons f r'' =>
        simp only [renderPath_cons] at ht2
        -- ht2 : e ++ '/' :: (f ++ renderPath r'') = c ++ '/' :: w
        obtain ⟨hec, htw⟩ := slash_split e c (f ++ renderPath r'') w hre hdc ht2
        have hrec : renderPath (f :: r'') = (renderPath d' ++ ['/']) ++ t := by
          rw [renderPath_cons, htw, ← hw]
          simp
        obtain ⟨⟨t', ht'⟩, hne⟩ := ih (f :: r'') hd' hr' ⟨t, hrec⟩
        refine ⟨⟨t', by rw [ht', hec]; rfl⟩, ?_⟩
        intro hcontra
        injection hcontra with _ h2
        exact hne h2

-- ---------------------------------------------------------------------------
-- Access control (server.ts: loadAccess, getToken, canAccess)
-- ---------------------------------------------------------------------------

/-- `AccessRules = Record<string, string[]>`: slug to list of allowed tokens,
modelled as an association list of own properties. -/
abbrev AccessRules := List (String × List String)

/-- Lookup among the properties `JSON.parse` creates on the rules object
itself (its own properties).  The JS `in` operator used by the guard
additionally walks the prototype chain; that full semantics is modelled by
`jsInRules` and `canAccessJS` below. -/
def findRule (rules : AccessRules) (slug : String) : Option (List String) :=
  (rules.find? (fun p => p.1 == slug)).map (fun p => p.2)

/-- `canAccess` from server.ts with `slug in rules` modelled as own-property
presence: an own-absent slug is public; otherwise the token must be non-null
and an exact member of the slug's list (`Array.prototype.includes` is exact
string equality).  This own-property reading coincides with the program
exactly when the slug is an own property of the rules or not an
`Object.prototype` property name (`canAccessJS_agrees` below); the full JS
semantics, in which `in` also finds `Object.prototype` members and a
non-null token then crashes on `rules[slug].includes`, is `canAccessJS`. -/
def canAccess (slug : String) (token : Option String) (rules : AccessRules) : Bool :=
  match findRule rules slug with
  | none => true
  | some toks =>
    match token with
    | none => false
    | some t => toks.contains t

/-- `loadAccess` from server.ts: `JSON.parse(await readFile(...))` inside
`try`, with `catch { return {} }`.  The read-and-parse outcome is the
argument: an exception (of any message) yields the empty mapping. -/
def loadAccess (readParse : Except String AccessRules) : AccessRules :=
  match readParse with
  | Except.ok rules => rules
  | Except.error _ => []

/-- The property names of `Object.prototype` (ECMAScript, including the
Annex B legacy accessors), visible through the prototype chain of every
object produced by `JSON.parse`. -/
def objectProtoKeys : List String :=
  ["constructor", "hasOwnProperty", "isPrototypeOf", "propertyIsEnumerable",
   "toLocaleString", "toString", "valueOf", "__defineGetter__",
   "__defineSetter__", "__lookupGetter__", "__lookupSetter__", "__proto__"]

/-- JS `slug in rules` for a `JSON.parse` object: true for an own property or
for any `Object.prototype` property reached through the prototype chain. -/
def jsInRules (rules : AccessRules) (slug : String) : Bool :=
  (findRule rules slug).isSome || objectProtoKeys.contains slug

/-- `canAccess` from server.ts under full JavaScript semantics.  `none`
models a thrown TypeError: for a slug that is an `Object.prototype` property
but not an own property, `slug in rules` is true, and with a non-null token
the code evaluates `rules[slug].includes(token)` where `rules[slug]` is the
inherited prototype member, which has no `includes`.  With a null token the
`&&` short-circuits to false before that access.  An own property (even one
named after a prototype member, which shadows it) behaves normally. -/
def canAccessJS (slug : String) (token : Option String) (rules : AccessRules) :
    Option Bool :=
  if !(jsInRules rules slug) then some true
  else
    match token with
    | none => some false
    | some t =>
      match findRule rules slug with
      | some toks => some (toks.contains t)
      | none => none

-- ---------------------------------------------------------------------------
-- Shared-secret comparison (server.ts: checkToken)
-- ---------------------------------------------------------------------------

/-- `checkToken` from server.ts.  `WS_TOKEN` is `none` when the environment
variable is unset; the JS falsiness guard `if (!WS_TOKEN)` also rejects the
empty string.  The byte-length guard plus `timingSafeEqual` on the UTF-8
buffers together decide exactly string equality (UTF-8 encoding is
injective), so the comparison is modelled as the length guard followed by
string equality. -/
def checkToken (wsToken : Option String) (input : String) : Bool :=
  match wsToken with
  | none => false
  | some s =>
    if s == "" then false
    else if input.length != s.length then false
    else input == s

-- ---------------------------------------------------------------------------
-- WebSocket admission gate (server.ts handler, path "/ws")
-- ---------------------------------------------------------------------------

/-- Per-connection state (`WSData`): `authenticated` plus the optional
session handle (`sessionId`, absent until a turn completes). -/
structure ConnState where
  authenticated : Bool
  sessionId : Option String

/-- JS truthiness of a nullable string: null/undefined and "" are falsy. -/
def truthyS : Option String → Bool
  | none => false
  | some s => !(s == "")

/-- Server configuration for the WebSocket endpoint: the shared secret
(`WS_TOKEN`) and the optional origin allow-list (`ALLOWED_ORIGIN`). -/
structure ServerCfg where
  wsToken : Option String
  allowedOrigin : Option String

/-- Outcome of the upgrade-request admission gate. -/
inductive AdmissionOutcome
  | unavailable              -- 503 "WS auth not configured"
  | forbidden                -- 403 "Forbidden"
  | tooMany                  -- 429 "Too many connections"
  | admitted (data : ConnState)

/-- The origin check condition from server.ts:
`ALLOWED_ORIGIN && origin && origin !== ALLOWED_ORIGIN`. -/
def originMismatch (cfg : ServerCfg) (origin : Option String) : Bool :=
  truthyS cfg.allowedOrigin && truthyS origin && !(origin == cfg.allowedOrigin)

/-- The admission gate for `path === "/ws"` in server.ts, in source order:
no configured secret, then origin, then the global connection counter, then
upgrade with `data: { authenticated: false }`. -/
def admitWs (cfg : ServerCfg) (origin : Option String) (activeWsCount : Nat) :
    AdmissionOutcome :=
  if !truthyS cfg.wsToken then AdmissionOutcome.unavailable
  else if originMismatch cfg origin then AdmissionOutcome.forbidden
  else if activeWsCount ≥ 1 then AdmissionOutcome.tooMany
  else AdmissionOutcome.admitted ⟨false, none⟩

-- ---------------------------------------------------------------------------
-- Claims about access control and admission
-- ---------------------------------------------------------------------------

/-- The own-property approximation agrees with the full JS semantics on
every slug that is an own property of the rules or not an `Object.prototype`
property name; the two differ only at prototype-named, non-own slugs. -/
theorem canAccessJS_agrees (slug : String) (token : Option String)
    (rules : AccessRules)
    (h : (findRule rules slug).isSome = true ∨
         objectProtoKeys.contains slug = false) :
    canAccessJS slug token rules = some (canAccess slug token rules) := by
  cases hf : findRule rules slug with
  | some toks =>
    have hin : jsInRules rules slug = true := by simp [jsInRules, hf]
    cases token with
    | none => simp [canAccessJS, hin, canAccess, hf]
    | some t => simp [canAccessJS, hin, canAccess, hf]
  | none =>
    rcases h with h | h
    · rw [hf] at h; simp at h
    · have hm : slug ∉ objectProtoKeys := by simpa using h
      have hin : jsInRules rules slug = false := by simp [jsInRules, hf, hm]
      simp [canAccessJS, hin, canAccess, hf]

/-- C4 (counterexample to the claim as stated): the slug "toString" is absent
from the (empty) access mapping, yet canAccess does not return true: the JS
`in` operator finds `toString` on `Object.prototype`, so the public-guard is
skipped; a null token then yields false and a supplied token throws a
TypeError on `rules["toString"].includes`. -/
theorem claim4_canAccess_counterexample :
    findRule [] "toString" = none ∧
    canAccessJS "toString" none [] = some false ∧
    canAccessJS "toString" (some "tok") [] = none :=
  ⟨rfl, by decide, by decide⟩

/-- C4 (amended): a slug absent from the mapping that is not an
`Object.prototype` property name is public for every token including a
missing one; a slug absent from the mapping that is an `Object.prototype`
property name yields false for a missing token and a thrown TypeError for a
supplied token; a slug present in the mapping is accessible iff the supplied
token is non-null and an exact-match member of that slug's token list (a
present-but-wrong token and a missing token both yield false). -/
theorem claim4_canAccess :
    (∀ (slug : String) (token : Option String) (rules : AccessRules),
       findRule rules slug = none → objectProtoKeys.contains slug = false →
       canAccessJS slug token rules = some true) ∧
    (∀ (slug : String) (rules : AccessRules),
       findRule rules slug = none → objectProtoKeys.contains slug = true →
       canAccessJS slug none rules = some false ∧
       ∀ t : String, canAccessJS slug (some t) rules = none) ∧
    (∀ (slug : String) (token : Option String) (rules : AccessRules)
       (toks : List String), findRule rules slug = some toks →
       (canAccessJS slug token rules = some true ↔
          ∃ t, token = some t ∧ t ∈ toks)) := by
  refine ⟨?_, ?_, ?_⟩
  · intro slug token rules hf hp
    have hm : slug ∉ objectProtoKeys := by simpa using hp
    simp [canAccessJS, jsInRules, hf, hm]
  · intro slug rules hf hp
    have hm : slug ∈ objectProtoKeys := by simpa using hp
    refine ⟨?_, fun t => ?_⟩
    · simp [canAccessJS, jsInRules, hf, hm]
    · simp [canAccessJS, jsInRules, hf, hm]
  · intro slug token rules toks hf
    have hin : jsInRules rules slug = true := by simp [jsInRules, hf]
    cases token with
    | none => simp [canAccessJS, hin, hf]
    | some t => simp [canAccessJS, hin, hf, List.contains_iff_exists_mem_beq]

/-- Witness for C4 (amended) at concrete inputs: an unlisted non-prototype
slug is public with no token; the unlisted prototype-named slug "toString"
yields false without a token and a TypeError with one; a listed slug accepts
its listed token and rejects a missing one. -/
theorem claim4_canAccess_witness :
    canAccessJS "pub" none [("secret", ["tok1"])] = some true ∧
    (canAccessJS "toString" none [] = some false ∧
       canAccessJS "toString" (some "tok") [] = none) ∧
    (canAccessJS "secret" (some "tok1") [("secret", ["tok1"])] = some true ↔
       ∃ t, (some "tok1" : Option String) = some t ∧ t ∈ ["tok1"]) ∧
    (canAccessJS "secret" none [("secret", ["tok1"])] = some true ↔
       ∃ t, (none : Option String) = some t ∧ t ∈ ["tok1"]) :=
  ⟨claim4_canAccess.1 "pub" none [("secret", ["tok1"])] (by decide) (by decide),
   ⟨(claim4_canAccess.2.1 "toString" [] (by decide) (by decide)).1,
    (claim4_canAccess.2.1 "toString" [] (by decide) (by decide)).2 "tok"⟩,
   claim4_canAccess.2.2 "secret" (some "tok1") [("secret", ["tok1"])] ["tok1"]
     (by decide),
   claim4_canAccess.2.2 "secret" none [("secret", ["tok1"])] ["tok1"]
     (by decide)⟩

/-- C9 (counterexample to the claim as stated): after a failed load the
mapping is empty, yet not every document becomes public: the document whose
slug is "toString" yields false for a missing token and a thrown TypeError
for a supplied one, because the JS `in` operator finds `toString` on
`Object.prototype`. -/
theorem claim9_loadAccess_counterexample :
    loadAccess (Except.error "ENOENT") = [] ∧
    canAccessJS "toString" none (loadAccess (Except.error "ENOENT")) = some false ∧
    canAccessJS "toString" (some "tok") (loadAccess (Except.error "ENOENT")) = none :=
  ⟨rfl, by decide, by decide⟩

/-- C9 (amended): loadAccess never throws to its caller.  On any read or
parse failure it returns the empty mapping, under which every document whose
slug is not an `Object.prototype` property name becomes public (a
prototype-named slug instead yields false or a TypeError, per C4); on
success it returns the parsed mapping unchanged. -/
theorem claim9_loadAccess :
    (∀ (e : String), loadAccess (Except.error e) = [] ∧
       ∀ (slug : String) (token : Option String),
         objectProtoKeys.contains slug = false →
         canAccessJS slug token (loadAccess (Except.error e)) = some true) ∧
    (∀ (rules : AccessRules), loadAccess (Except.ok rules) = rules) := by
  refine ⟨fun e => ⟨rfl, fun slug token hp => ?_⟩, fun rules => rfl⟩
  have hm : slug ∉ objectProtoKeys := by simpa using hp
  simp [loadAccess, canAccessJS, jsInRules, findRule, hm]

/-- Witness for C9 (amended): a failed load yields the empty mapping, a
non-prototype slug is then public with no token, and a successful load
returns the parsed mapping. -/
theorem claim9_loadAccess_witness :
    loadAccess (Except.error "EACCES") = [] ∧
    canAccessJS "notes" none (loadAccess (Except.error "EACCES")) = some true ∧
    loadAccess (Except.ok [("a", ["t"])]) = [("a", ["t"])] :=
  ⟨(claim9_loadAccess.1 "EACCES").1,
   (claim9_loadAccess.1 "EACCES").2 "notes" none (by decide),
   claim9_loadAccess.2 [("a", ["t"])]⟩

/-- C3: the admission gate performs its checks in source order: no configured
shared secret (unset or empty) yields service-unavailable; a configured
allow-list together with a declared differing Origin yields forbidden; a
connection counter at or above the cap of 1 yields too-many-connections;
otherwise the connection is admitted with `authenticated = false` and no
session handle. -/
theorem claim3_admission :
    (∀ (cfg : ServerCfg) (origin : Option String) (cnt : Nat),
       truthyS cfg.wsToken = false →
       admitWs cfg origin cnt = AdmissionOutcome.unavailable) ∧
    (∀ (cfg : ServerCfg) (o : String) (cnt : Nat),
       truthyS cfg.wsToken = true → truthyS cfg.allowedOrigin = true →
       o ≠ "" → some o ≠ cfg.allowedOrigin →
       admitWs cfg (some o) cnt = AdmissionOutcome.forbidden) ∧
    (∀ (cfg : ServerCfg) (origin : Option String) (cnt : Nat),
       truthyS cfg.wsToken = true → originMismatch cfg origin = false →
       1 ≤ cnt → admitWs cfg origin cnt = AdmissionOutcome.tooMany) ∧
    (∀ (cfg : ServerCfg) (origin : Option String),
       truthyS cfg.wsToken = true → originMismatch cfg origin = false →
       admitWs cfg origin 0 = AdmissionOutcome.admitted ⟨false, none⟩) := by
  refine ⟨fun cfg origin cnt h => ?_, fun cfg o cnt h1 h2 h3 h4 => ?_,
          fun cfg origin cnt h1 h2 h3 => ?_, fun cfg origin h1 h2 => ?_⟩
  · simp [admitWs, h]
  · have hmm : originMismatch cfg (some o) = true := by
      simp only [originMismatch, Bool.and_eq_true, Bool.not_eq_true', beq_eq_false_iff_ne]
      refine ⟨⟨h2, ?_⟩, h4⟩
      simp [truthyS, h3]
    simp [admitWs, h1, hmm]
  · simp [admitWs, h1, h2, h3]
  · simp [admitWs, h1, h2]

/-- Witness for C3 at concrete inputs: unset secret gives 503; a differing
declared Origin gives 403; a counter of 1 gives 429; and a fresh upgrade with
counter 0 is admitted unauthenticated. -/
theorem claim3_admission_witness :
    admitWs ⟨none, none⟩ none 0 = AdmissionOutcome.unavailable ∧
    admitWs ⟨some "sec", some "https://a.example"⟩ (some "https://b.example") 0 =
      AdmissionOutcome.forbidden ∧
    admitWs ⟨some "sec", none⟩ none 1 = AdmissionOutcome.tooMany ∧
    admitWs ⟨some "sec", none⟩ none 0 = AdmissionOutcome.admitted ⟨false, none⟩ :=
  ⟨claim3_admission.1 ⟨none, none⟩ none 0 (by decide),
   claim3_admission.2.1 ⟨some "sec", some "https://a.example"⟩ "https://b.example" 0
     (by decide) (by decide) (by decide) (by decide),
   claim3_admission.2.2.1 ⟨some "sec", none⟩ none 1 (by decide) (by decide) (by decide),
   claim3_admission.2.2.2 ⟨some "sec", none⟩ none (by decide) (by decide)⟩

/-- C10: with an origin allow-list configured, an upgrade request that omits
the Origin header entirely is not refused by the origin check: it proceeds to
the connection-counter check and is admitted when the counter is below the
cap. -/
theorem claim10_missing_origin (cfg : ServerCfg) (a : String) (cnt : Nat)
    (htok : truthyS cfg.wsToken = true) (hao : cfg.allowedOrigin = some a)
    (ha : a ≠ "") :
    admitWs cfg none cnt =
      if 1 ≤ cnt then AdmissionOutcome.tooMany
      else AdmissionOutcome.admitted ⟨false, none⟩ := by
  have hmm : originMismatch cfg none = false := by
    simp [originMismatch, truthyS]
  by_cases hc : 1 ≤ cnt
  · simp [admitWs, htok, hmm, hc]
  · simp [admitWs, htok, hmm, hc]

/-- Witness for C10: with allow-list configured and no Origin header, counter
0 admits the connection. -/
theorem claim10_missing_origin_witness :
    admitWs ⟨some "sec", some "https://a.example"⟩ none 0 =
      if 1 ≤ 0 then AdmissionOutcome.tooMany
      else AdmissionOutcome.admitted ⟨false, none⟩ :=
  claim10_missing_origin ⟨some "sec", some "https://a.example"⟩ "https://a.example" 0
    (by decide) rfl (by decide)

-- ---------------------------------------------------------------------------
-- JSON values (shallow model of JSON.parse results)
-- ---------------------------------------------------------------------------

/-- JSON values as produced by `JSON.parse`.  Property access `msg.k` on a
non-object value yields undefined, modelled by `Json.get` returning `none`. -/
inductive Json
  | jnull
  | jbool (b : Bool)
  | jnum (n : Int)
  | jstr (s : String)
  | jarr (xs : List Json)
  | jobj (fields : List (String × Json))

/-- Property access `j.k`: `none` models JavaScript's undefined. -/
def Json.get (j : Json) (k : String) : Option Json :=
  match j with
  | Json.jobj fields => (fields.find? (fun p => p.1 == k)).map (fun p => p.2)
  | _ => none

-- ---------------------------------------------------------------------------
-- Wire protocol (protocol.ts: ChatEvent) and upstream messages (claude.ts)
-- ---------------------------------------------------------------------------

/-- The public wire protocol `ChatEvent` from protocol.ts.  The monetary cost
is carried opaquely (the relay never computes with it), modelled as `Int`. -/
inductive ChatEvent
  | authOk
  | textDelta (delta : String)
  | toolUse (name : String) (input : Json)
  | toolResult (name : String) (output : String)
  | done (cost : Int) (turns : Nat) (session_id : String)
  | error (message : String) (recoverable : Bool)

/-- An upstream `stream_event` payload: either a `content_block_delta` whose
delta has type `text_delta`, or anything else. -/
inductive StreamEv
  | textDelta (text : String)
  | otherSE

/-- A content block of an upstream assistant message. -/
inductive ContentBlock
  | toolUse (name : String) (input : Json)
  | otherCB

/-- An upstream terminal `result` message: `success` (with cumulative cost,
turn count and session handle) or any other subtype, which carries an
optional `errors` array and the subtype string. -/
inductive ResultMsg
  | success (total_cost_usd : Int) (num_turns : Nat) (session_id : String)
  | failure (errors : Option (List String)) (subtype : String)

/-- Upstream `SDKMessage` shapes that `project` in claude.ts discriminates. -/
inductive SDKMessage
  | streamEvent (e : StreamEv)
  | assistant (content : List ContentBlock)
  | result (r : ResultMsg)
  | otherMsg

/-- True exactly on terminal `result` messages. -/
def isResult : SDKMessage → Bool
  | SDKMessage.result _ => true
  | _ => false

/-- `project` from claude.ts, mapping one upstream message to zero or more
public events: text deltas pass through; each `tool_use` block of an
assistant message yields one `tool-use` event in order; a `result` maps to
`done` on success and to `error` (message `errors?.[0] ?? subtype`,
`recoverable = false`) otherwise. -/
def project : SDKMessage → List ChatEvent
  | SDKMessage.streamEvent (StreamEv.textDelta t) => [ChatEvent.textDelta t]
  | SDKMessage.streamEvent StreamEv.otherSE => []
  | SDKMessage.assistant content =>
    content.filterMap (fun b =>
      match b with
      | ContentBlock.toolUse n i => some (ChatEvent.toolUse n i)
      | ContentBlock.otherCB => none)
  | SDKMessage.result (ResultMsg.success c n sid) => [ChatEvent.done c n sid]
  | SDKMessage.result (ResultMsg.failure errs sub) =>
    [ChatEvent.error ((errs.bind List.head?).getD sub) false]
  | SDKMessage.otherMsg => []

/-- The outbound upstream request built by `chat` in claude.ts: the prompt
plus `resume: sessionId` spread in only when `sessionId` is truthy (the other
options are fixed constants and omitted from the model). -/
structure QueryReq where
  prompt : String
  resume : Option String
deriving DecidableEq

/-- `...(sessionId ? { resume: sessionId } : {})`: the empty string is falsy,
so only a non-null, non-empty session handle is carried as `resume`. -/
def chatRequest (prompt : String) (sessionId : Option String) : QueryReq :=
  ⟨prompt, match sessionId with
           | some s => if s = "" then none else some s
           | none => none⟩

/-- One turn's upstream behaviour: the messages the stream yields, and
optionally an exception it raises after them (with its message). -/
structure Upstream where
  msgs : List SDKMessage
  raises : Option String

/-- The events `chat` yields for a turn before any raised exception. -/
def turnEvents (up : Upstream) : List ChatEvent := (up.msgs.map project).flatten

-- ---------------------------------------------------------------------------
-- Per-message WebSocket handler (server.ts: websocket.message)
-- ---------------------------------------------------------------------------

/-- The session-handle update performed for each forwarded event:
`if (event.type === "done") ws.data.sessionId = event.session_id`. -/
def sidUpd (acc : Option String) (e : ChatEvent) : Option String :=
  match e with
  | ChatEvent.done _ _ s => some s
  | _ => acc

/-- Session handle carried by the last `done` event of a list, if any. -/
def lastDone : List ChatEvent → Option String
  | [] => none
  | e :: rest =>
    match lastDone rest with
    | some s => some s
    | none => sidUpd none e

/-- `checkToken(msg.token)` guarded by the shape checks
`msg.type === "auth" && typeof msg.token === "string"`. -/
def isValidAuth (wsToken : Option String) (j : Json) : Bool :=
  (match j.get "type" with
   | some (Json.jstr ty) => ty == "auth"
   | _ => false) &&
  (match j.get "token" with
   | some (Json.jstr t) => checkToken wsToken t
   | _ => false)

/-- Observable outcome of handling one inbound WebSocket message: the new
per-connection state, the events sent, the close code if the socket was
closed, and the upstream request if the message was processed as a prompt. -/
structure StepResult where
  state : ConnState
  sent : List ChatEvent
  closeCode : Option Nat
  upstreamCalled : Option QueryReq

/-- The `message` handler from server.ts.  While unauthenticated, the first
message must parse as JSON (`parsed` is the outcome of `JSON.parse text`,
`none` when it throws) and pass `isValidAuth`; otherwise the socket closes
with code 4401 and nothing else happens.  Once authenticated, the text is a
prompt: `chat(text, ws.data.sessionId)` is consumed, every event is sent in
order, each `done` updates the stored session handle, and a raised upstream
exception is caught and surfaced as one synthesized `error` event with
`recoverable = false`. -/
def handleMessage (wsToken : Option String) (st : ConnState) (text : String)
    (parsed : Option Json) (up : Upstream) : StepResult :=
  if st.authenticated then
    let evs := turnEvents up
    let newSid := evs.foldl sidUpd st.sessionId
    let sent :=
      match up.raises with
      | none => evs
      | some m => evs ++ [ChatEvent.error m false]
    ⟨⟨true, newSid⟩, sent, none, some (chatRequest text st.sessionId)⟩
  else
    match parsed with
    | some j =>
      if isValidAuth wsToken j then
        ⟨⟨true, st.sessionId⟩, [ChatEvent.authOk], none, none⟩
      else ⟨st, [], some 4401, none⟩
    | none => ⟨st, [], some 4401, none⟩

-- ---------------------------------------------------------------------------
-- Relay lemmas
-- ---------------------------------------------------------------------------

/-- Folding the per-event session update over a turn's events yields the
handle of the last `done` event, or leaves the prior handle in place when the
turn produced no `done`. -/
theorem foldl_sidUpd (evs : List ChatEvent) :
    ∀ (init : Option String),
      evs.foldl sidUpd init =
        match lastDone evs with
        | some s => some s
        | none => init := by
  induction evs with
  | nil => intro init; rfl
  | cons e rest ih =>
    intro init
    rw [List.foldl_cons, ih (sidUpd init e)]
    cases hld : lastDone rest with
    | some s => simp [lastDone, hld]
    | none =>
      cases e with
      | done c n s => simp [lastDone, hld, sidUpd]
      | authOk => simp [lastDone, hld, sidUpd]
      | textDelta d => simp [lastDone, hld, sidUpd]
      | toolUse n i => simp [lastDone, hld, sidUpd]
      | toolResult n o => simp [lastDone, hld, sidUpd]
      | error m r => simp [lastDone, hld, sidUpd]

/-- True exactly on `error` events. -/
def isErrorEv : ChatEvent → Bool
  | ChatEvent.error _ _ => true
  | _ => false

/-- True exactly on `done` events. -/
def isDoneEv : ChatEvent → Bool
  | ChatEvent.done _ _ _ => true
  | _ => false

/-- Tool-use projection of assistant blocks yields neither `error` nor `done`
events. -/
theorem blocks_no_terminal (content : List ContentBlock) :
    (content.filterMap (fun b =>
      match b with
      | ContentBlock.toolUse n i => some (ChatEvent.toolUse n i)
      | ContentBlock.otherCB => none)).countP isErrorEv = 0 ∧
    (content.filterMap (fun b =>
      match b with
      | ContentBlock.toolUse n i => some (ChatEvent.toolUse n i)
      | ContentBlock.otherCB => none)).countP isDoneEv = 0 := by
  induction content with
  | nil => simp
  | cons b rest ihc =>
    cases b with
    | toolUse n i =>
      simp only [List.filterMap_cons]
      simp [List.countP_cons, isErrorEv, isDoneEv, ihc.1, ihc.2]
    | otherCB =>
      simp only [List.filterMap_cons]
      exact ihc

/-- A message that is not a terminal `result` projects to no `error` and no
`done` events. -/
theorem project_no_terminal (m : SDKMessage) (hm : isResult m = false) :
    (project m).countP isErrorEv = 0 ∧ (project m).countP isDoneEv = 0 := by
  cases m with
  | streamEvent e =>
    cases e <;> simp [project, List.countP, List.countP.go, isErrorEv, isDoneEv]
  | assistant content => exact blocks_no_terminal content
  | result r => simp [isResult] at hm
  | otherMsg => simp [project]

/-- A prefix of non-result messages yields no `error` and no `done` events. -/
theorem turn_no_terminal (msgs : List SDKMessage)
    (h : ∀ m ∈ msgs, isResult m = false) :
    ((msgs.map project).flatten).countP isErrorEv = 0 ∧
    ((msgs.map project).flatten).countP isDoneEv = 0 := by
  induction msgs with
  | nil => simp
  | cons m rest ih =>
    have hm := h m (List.mem_cons_self m rest)
    have hrest := ih (fun x hx => h x (List.mem_cons_of_mem m hx))
    obtain ⟨h1, h2⟩ := project_no_terminal m hm
    simp [List.countP_append, h1, h2, hrest.1, hrest.2]

/-- A list with no `done` events has no last `done` handle. -/
theorem lastDone_of_no_done (evs : List ChatEvent)
    (h : evs.countP isDoneEv = 0) : lastDone evs = none := by
  induction evs with
  | nil => rfl
  | cons e rest ih =>
    rw [List.countP_cons] at h
    have h1 : rest.countP isDoneEv = 0 := by omega
    have h2 : (if isDoneEv e then 1 else 0) = 0 := by omega
    rw [lastDone, ih h1]
    cases e with
    | done c n s => simp [isDoneEv] at h2
    | authOk => rfl
    | textDelta d => rfl
    | toolUse n i => rfl
    | toolResult n o => rfl
    | error m r => rfl

/-- Semantics of `checkToken` against a configured secret: the length guard
plus the constant-time comparison accept exactly the secret itself, and an
empty configured secret accepts nothing. -/
theorem checkToken_some_iff (s input : String) :
    checkToken (some s) input = true ↔ (s ≠ "" ∧ input = s) := by
  by_cases h0 : s = ""
  · subst h0; simp [checkToken]
  · by_cases hl : input.length = s.length
    · simp [checkToken, h0, hl, bne]
    · have hne : input ≠ s := fun heq => hl (by rw [heq])
      simp [checkToken, h0, hl, bne, hne]

/-- Shape semantics of the first-message auth check: it passes exactly for a
JSON object whose `type` is the string "auth" and whose `token` is a string
equal to the (necessarily non-empty) configured secret. -/
theorem isValidAuth_iff (s : String) (j : Json) :
    isValidAuth (some s) j = true ↔
      (j.get "type" = some (Json.jstr "auth") ∧
       ∃ t, j.get "token" = some (Json.jstr t) ∧ s ≠ "" ∧ t = s) := by
  simp only [isValidAuth, Bool.and_eq_true]
  constructor
  · rintro ⟨h1, h2⟩
    rcases hg : j.get "type" with _ | jv
    · rw [hg] at h1; simp at h1
    · cases jv with
      | jstr ty =>
        rw [hg] at h1
        simp only [beq_iff_eq] at h1
        subst h1
        rcases ht : j.get "token" with _ | tv
        · rw [ht] at h2; simp at h2
        · cases tv with
          | jstr t =>
            rw [ht] at h2
            obtain ⟨h0, heq⟩ := (checkToken_some_iff s t).mp h2
            exact ⟨rfl, t, rfl, h0, heq⟩
          | jnull => rw [ht] at h2; simp at h2
          | jbool b => rw [ht] at h2; simp at h2
          | jnum n => rw [ht] at h2; simp at h2
          | jarr xs => rw [ht] at h2; simp at h2
          | jobj fs => rw [ht] at h2; simp at h2
      | jnull => rw [hg] at h1; simp at h1
      | jbool b => rw [hg] at h1; simp at h1
      | jnum n => rw [hg] at h1; simp at h1
      | jarr xs => rw [hg] at h1; simp at h1
      | jobj fs => rw [hg] at h1; simp at h1
  · rintro ⟨h1, t, h2, h0, rfl⟩
    refine ⟨by rw [h1]; simp, ?_⟩
    rw [h2]
    exact (checkToken_some_iff _ _).mpr ⟨h0, rfl⟩

/-- C2: with a configured (non-empty) shared secret, the first inbound
message on an unauthenticated connection transitions it to authenticated and
emits exactly one `auth-ok` iff it parses as a JSON object with `type`
"auth" and a string `token` equal to the secret; any other first message
(wrong token, wrong shape, unparsable prompt text) closes the socket with
code 4401, emits no events, and is not processed as a prompt. -/
theorem claim2_handshake (s : String) (hs : s ≠ "") (st : ConnState)
    (hauth : st.authenticated = false) (text : String)
    (parsed : Option Json) (up : Upstream) :
    ((∃ j t, parsed = some j ∧
        j.get "type" = some (Json.jstr "auth") ∧
        j.get "token" = some (Json.jstr t) ∧ t = s) →
      handleMessage (some s) st text parsed up =
        ⟨⟨true, st.sessionId⟩, [ChatEvent.authOk], none, none⟩) ∧
    ((¬ ∃ j t, parsed = some j ∧
        j.get "type" = some (Json.jstr "auth") ∧
        j.get "token" = some (Json.jstr t) ∧ t = s) →
      handleMessage (some s) st text parsed up = ⟨st, [], some 4401, none⟩) := by
  constructor
  · rintro ⟨j, t, rfl, hty, htok, hts⟩
    have hva : isValidAuth (some s) j = true :=
      (isValidAuth_iff s j).mpr ⟨hty, t, htok, hs, hts⟩
    simp [handleMessage, hauth, hva]
  · intro hne
    cases parsed with
    | none => simp [handleMessage, hauth]
    | some j =>
      cases hb : isValidAuth (some s) j with
      | false => simp [handleMessage, hauth, hb]
      | true =>
        obtain ⟨hty, t, htok, _, hts⟩ := (isValidAuth_iff s j).mp hb
        exact absurd ⟨j, t, rfl, hty, htok, hts⟩ hne

/-- Witness for C2: the correct auth object authenticates and emits one
`auth-ok`; a plain prompt string (which `JSON.parse` rejects) closes with
4401 and emits nothing; a wrong token also closes with 4401. -/
theorem claim2_handshake_witness :
    handleMessage (some "secret") ⟨false, none⟩ "m"
        (some (Json.jobj [("type", Json.jstr "auth"), ("token", Json.jstr "secret")]))
        ⟨[], none⟩ =
      ⟨⟨true, none⟩, [ChatEvent.authOk], none, none⟩ ∧
    handleMessage (some "secret") ⟨false, none⟩ "hello there" none ⟨[], none⟩ =
      ⟨⟨false, none⟩, [], some 4401, none⟩ ∧
    handleMessage (some "secret") ⟨false, none⟩ "m"
        (some (Json.jobj [("type", Json.jstr "auth"), ("token", Json.jstr "wrong")]))
        ⟨[], none⟩ =
      ⟨⟨false, none⟩, [], some 4401, none⟩ := by
  refine ⟨(claim2_handshake "secret" (by decide) ⟨false, none⟩ rfl "m" _ ⟨[], none⟩).1
      ⟨_, "secret", rfl, rfl, rfl, rfl⟩,
    (claim2_handshake "secret" (by decide) ⟨false, none⟩ rfl "hello there" none
        ⟨[], none⟩).2 ?_,
    (claim2_handshake "secret" (by decide) ⟨false, none⟩ rfl "m" _ ⟨[], none⟩).2 ?_⟩
  · rintro ⟨j, t, hj, -, -, -⟩
    exact Option.noConfusion hj
  · rintro ⟨j, t, hj, -, htok, rfl⟩
    injection hj with hj
    subst hj
    have hbad : (some (Json.jstr "wrong") : Option Json) = some (Json.jstr "secret") := htok
    injection hbad with hbad
    injection hbad with hbad
    exact absurd hbad (by decide)

/-- An upstream turn that fails before producing a `done`: either the stream
raises an exception after some non-terminal messages, or its terminal message
is a non-success `result`. -/
inductive FailingTurn : Upstream → Prop
  | raised (pre : List SDKMessage) (err : String)
      (h : ∀ m ∈ pre, isResult m = false) : FailingTurn ⟨pre, some err⟩
  | errResult (pre : List SDKMessage) (errs : Option (List String)) (sub : String)
      (h : ∀ m ∈ pre, isResult m = false) :
      FailingTurn ⟨pre ++ [SDKMessage.result (ResultMsg.failure errs sub)], none⟩

/-- C7: when the upstream stream of an authenticated turn fails (error result
or raised exception) before producing a `done`, the client receives exactly
one `error` event, every `error` event sent carries `recoverable = false`,
no `done` event is emitted, the socket is not closed, and the connection
remains authenticated and processes a subsequent prompt. -/
theorem claim7_upstream_failure (wsToken : Option String) (st : ConnState)
    (text : String) (parsed : Option Json) (up : Upstream)
    (hauth : st.authenticated = true) (hf : FailingTurn up) :
    (handleMessage wsToken st text parsed up).sent.countP isErrorEv = 1 ∧
    (handleMessage wsToken st text parsed up).sent.countP isDoneEv = 0 ∧
    (∀ msg recov, ChatEvent.error msg recov ∈ (handleMessage wsToken st text parsed up).sent →
      recov = false) ∧
    (handleMessage wsToken st text parsed up).closeCode = none ∧
    (handleMessage wsToken st text parsed up).state.authenticated = true ∧
    ∀ (text2 : String) (parsed2 : Option Json) (up2 : Upstream),
      ((handleMessage wsToken (handleMessage wsToken st text parsed up).state
          text2 parsed2 up2).upstreamCalled).isSome = true := by
  cases hf with
  | raised pre err h =>
    obtain ⟨he, hd⟩ := turn_no_terminal pre h
    have hsent : (handleMessage wsToken st text parsed ⟨pre, some err⟩).sent =
        (pre.map project).flatten ++ [ChatEvent.error err false] := by
      simp [handleMessage, hauth, turnEvents]
    refine ⟨?_, ?_, ?_, ?_, ?_, ?_⟩
    · rw [hsent, List.countP_append, he]
      simp [List.countP_cons, isErrorEv]
    · rw [hsent, List.countP_append, hd]
      simp [List.countP_cons, isDoneEv]
    · intro msg recov hmem
      rw [hsent, List.mem_append] at hmem
      cases hmem with
      | inl hin =>
        have := (List.countP_eq_zero.mp he) _ hin
        simp [isErrorEv] at this
      | inr hin =>
        simp only [List.mem_singleton] at hin
        injection hin
    · simp [handleMessage, hauth]
    · simp [handleMessage, hauth]
    · intro text2 parsed2 up2
      simp [handleMessage, hauth]
  | errResult pre errs sub h =>
    obtain ⟨he, hd⟩ := turn_no_terminal pre h
    have hsent : (handleMessage wsToken st text parsed
          ⟨pre ++ [SDKMessage.result (ResultMsg.failure errs sub)], none⟩).sent =
        (pre.map project).flatten ++
          [ChatEvent.error ((errs.bind List.head?).getD sub) false] := by
      simp [handleMessage, hauth, turnEvents, List.map_append, List.flatten_append, project]
    refine ⟨?_, ?_, ?_, ?_, ?_, ?_⟩
    · rw [hsent, List.countP_append, he]
      simp [List.countP_cons, isErrorEv]
    · rw [hsent, List.countP_append, hd]
      simp [List.countP_cons, isDoneEv]
    · intro msg recov hmem
      rw [hsent, List.mem_append] at hmem
      cases hmem with
      | inl hin =>
        have := (List.countP_eq_zero.mp he) _ hin
        simp [isErrorEv] at this
      | inr hin =>
        simp only [List.mem_singleton] at hin
        injection hin
    · simp [handleMessage, hauth]
    · simp [handleMessage, hauth]
    · intro text2 parsed2 up2
      simp [handleMessage, hauth]

/-- Witness for C7 at concrete inputs: both failure modes (raised exception
after a text delta; non-success result after a text delta) yield exactly one
error event, no done event, no close, and a processed next prompt. -/
theorem claim7_upstream_failure_witness :
    ((handleMessage none ⟨true, none⟩ "p" none
        ⟨[SDKMessage.streamEvent (StreamEv.textDelta "hi")], some "boom"⟩).sent.countP
          isErrorEv = 1 ∧
     (handleMessage none ⟨true, none⟩ "p" none
        ⟨[SDKMessage.streamEvent (StreamEv.textDelta "hi")], some "boom"⟩).sent.countP
          isDoneEv = 0 ∧
     (handleMessage none ⟨true, none⟩ "p" none
        ⟨[SDKMessage.streamEvent (StreamEv.textDelta "hi")], some "boom"⟩).closeCode = none) ∧
    ((handleMessage none ⟨true, none⟩ "p" none
        ⟨[SDKMessage.streamEvent (StreamEv.textDelta "hi"),
          SDKMessage.result (ResultMsg.failure none "error_during_execution")],
         none⟩).sent.countP isErrorEv = 1 ∧
     (handleMessage none ⟨true, none⟩ "p" none
        ⟨[SDKMessage.streamEvent (StreamEv.textDelta "hi"),
          SDKMessage.result (ResultMsg.failure none "error_during_execution")],
         none⟩).sent.countP isDoneEv = 0) := by
  have h1 := claim7_upstream_failure none ⟨true, none⟩ "p" none
      ⟨[SDKMessage.streamEvent (StreamEv.textDelta "hi")], some "boom"⟩ rfl
      (FailingTurn.raised [SDKMessage.streamEvent (StreamEv.textDelta "hi")] "boom"
        (by intro m hm; simp only [List.mem_singleton] at hm; subst hm; rfl))
  have h2 := claim7_upstream_failure none ⟨true, none⟩ "p" none
      ⟨[SDKMessage.streamEvent (StreamEv.textDelta "hi"),
        SDKMessage.result (ResultMsg.failure none "error_during_execution")], none⟩ rfl
      (FailingTurn.errResult [SDKMessage.streamEvent (StreamEv.textDelta "hi")]
        none "error_during_execution"
        (by intro m hm; simp only [List.mem_singleton] at hm; subst hm; rfl))
  exact ⟨⟨h1.1, h1.2.1, h1.2.2.2.1⟩, ⟨h2.1, h2.2.1⟩⟩

/-- On an authenticated connection every inbound message is processed as a
prompt: the turn relay is invoked with the text and the stored handle. -/
theorem handleMessage_upstreamCalled (wsToken : Option String) (st : ConnState)
    (text : String) (parsed : Option Json) (up : Upstream)
    (h : st.authenticated = true) :
    (handleMessage wsToken st text parsed up).upstreamCalled =
      some (chatRequest text st.sessionId) := by
  simp [handleMessage, h]

/-- C6 (amended): after an authenticated turn whose last `done` carries a
non-empty session handle `s`, the stored handle becomes `s` and the next
turn's outbound upstream request carries `resume = s`; a turn with no `done`
event (in particular one terminating in `error`) leaves the stored handle
unchanged.  An empty-string handle is the JS-falsiness exception recorded in
the counterexample. -/
theorem claim6_session_carry (wsToken : Option String) (st : ConnState)
    (text : String) (parsed : Option Json) (up : Upstream)
    (hauth : st.authenticated = true) :
    (∀ s : String, s ≠ "" → lastDone (turnEvents up) = some s →
      (handleMessage wsToken st text parsed up).state.sessionId = some s ∧
      ∀ (text2 : String) (parsed2 : Option Json) (up2 : Upstream),
        (handleMessage wsToken (handleMessage wsToken st text parsed up).state
            text2 parsed2 up2).upstreamCalled = some ⟨text2, some s⟩) ∧
    (lastDone (turnEvents up) = none →
      (handleMessage wsToken st text parsed up).state.sessionId = st.sessionId) := by
  constructor
  · intro s hs hld
    have hsid : (handleMessage wsToken st text parsed up).state.sessionId = some s := by
      simp only [handleMessage, hauth, if_true]
      rw [foldl_sidUpd, hld]
    refine ⟨hsid, fun text2 parsed2 up2 => ?_⟩
    have hauth2 : (handleMessage wsToken st text parsed up).state.authenticated = true := by
      simp [handleMessage, hauth]
    rw [handleMessage_upstreamCalled _ _ _ parsed2 up2 hauth2, hsid]
    simp [chatRequest, hs]
  · intro hld
    simp only [handleMessage, hauth, if_true]
    rw [foldl_sidUpd, hld]

/-- Witness for C6 (amended): a turn ending in `done` with handle s1 stores
it and the next request resumes s1; a turn ending in `error` leaves the
stored handle unchanged. -/
theorem claim6_session_carry_witness :
    ((handleMessage (some "sec") ⟨true, none⟩ "hello" none
        ⟨[SDKMessage.streamEvent (StreamEv.textDelta "hi"),
          SDKMessage.result (ResultMsg.success 3 1 "s1")], none⟩).state.sessionId
        = some "s1" ∧
     (handleMessage (some "sec")
        (handleMessage (some "sec") ⟨true, none⟩ "hello" none
          ⟨[SDKMessage.streamEvent (StreamEv.textDelta "hi"),
            SDKMessage.result (ResultMsg.success 3 1 "s1")], none⟩).state
        "continue" none ⟨[], none⟩).upstreamCalled = some ⟨"continue", some "s1"⟩) ∧
    (handleMessage (some "sec") ⟨true, some "s0"⟩ "retry" none
        ⟨[SDKMessage.result (ResultMsg.failure none "error_during_execution")],
         none⟩).state.sessionId = some "s0" := by
  have h := claim6_session_carry (some "sec") ⟨true, none⟩ "hello" none
      ⟨[SDKMessage.streamEvent (StreamEv.textDelta "hi"),
        SDKMessage.result (ResultMsg.success 3 1 "s1")], none⟩ rfl
  have herr := (claim6_session_carry (some "sec") ⟨true, some "s0"⟩ "retry" none
      ⟨[SDKMessage.result (ResultMsg.failure none "error_during_execution")], none⟩ rfl).2
      rfl
  obtain ⟨hsid, hnext⟩ := h.1 "s1" (by decide) rfl
  exact ⟨⟨hsid, hnext "continue" none ⟨[], none⟩⟩, herr⟩

/-- C6 (counterexample to the claim as stated): a turn terminating in `done`
whose session handle is the empty string stores the empty handle, but the
next turn's outbound request omits `resume` (the empty string is falsy in
`sessionId ? { resume: sessionId } : {}`), so the request does not carry
`resume = s`. -/
theorem claim6_counterexample :
    (handleMessage (some "sec") ⟨true, none⟩ "hello" none
        ⟨[SDKMessage.result (ResultMsg.success 0 1 "")], none⟩).sent
      = [ChatEvent.done 0 1 ""] ∧
    (handleMessage (some "sec") ⟨true, none⟩ "hello" none
        ⟨[SDKMessage.result (ResultMsg.success 0 1 "")], none⟩).state.sessionId
      = some "" ∧
    (handleMessage (some "sec")
        (handleMessage (some "sec") ⟨true, none⟩ "hello" none
          ⟨[SDKMessage.result (ResultMsg.success 0 1 "")], none⟩).state
        "continue" none ⟨[], none⟩).upstreamCalled = some ⟨"continue", none⟩ ∧
    (some (QueryReq.mk "continue" none) ≠ some (QueryReq.mk "continue" (some ""))) := by
  refine ⟨rfl, rfl, rfl, by decide⟩

-- ---------------------------------------------------------------------------
-- Document/asset HTTP handler (server.ts handler, non-"/ws", non-"/chat")
-- ---------------------------------------------------------------------------

/-- The filesystem as seen through the two operations the handler performs on
candidate paths: `realpath` (symlink-following resolution) and `readFile`.
`none` models a thrown error (missing file, broken symlink, permission). -/
structure FS where
  realpathFn : JSStr → Option JSStr
  readFileFn : JSStr → Option JSStr

/-- `path.join(dir, name)` for the names reachable in the handler: every
joined name is separator-free and never "." or ".." (document names get
".md" appended; asset names carry an image extension), so join is plain
concatenation with a separator. -/
def joinP (dir name : JSStr) : JSStr := dir ++ '/' :: name

/-- The shared try-block of the asset and document branches: resolve the
candidate with `realpath`, resolve the document root, require the resolved
candidate to start with the resolved root plus a separator, then read the
file.  Returns the bytes on success and the list of paths passed to
filesystem operations, in order. -/
def resolveRead (fs : FS) (docsDir candidate : JSStr) : Option JSStr × List JSStr :=
  match fs.realpathFn candidate with
  | none => (none, [candidate])
  | some resolved =>
    match fs.realpathFn docsDir with
    | none => (none, [candidate, docsDir])
    | some docsReal =>
      if jsStartsWith resolved (docsReal ++ ['/']) then
        match fs.readFileFn resolved with
        | none => (none, [candidate, docsDir, resolved])
        | some data => (some data, [candidate, docsDir, resolved])
      else (none, [candidate, docsDir])

/-- `ASSET_EXT` from server.ts: allow-listed image extensions with their
content types. -/
def ASSET_EXT : List (JSStr × String) :=
  [(".png".data, "image/png"), (".jpg".data, "image/jpeg"),
   (".jpeg".data, "image/jpeg"), (".gif".data, "image/gif"),
   (".svg".data, "image/svg+xml"), (".webp".data, "image/webp")]

/-- `assetName.slice(assetName.lastIndexOf("."))`: the suffix starting at the
last dot (only meaningful when the name contains a dot). -/
def fromLastDot (name : JSStr) : JSStr :=
  '.' :: (name.reverse.takeWhile (fun c => c != '.')).reverse

/-- The extension computation from server.ts:
`assetName.includes(".") ? assetName.slice(assetName.lastIndexOf(".")).toLowerCase() : ""`
(ASCII lowercasing; the allow-listed extensions are ASCII). -/
def extOf (name : JSStr) : JSStr :=
  if name.contains '.' then (fromLastDot name).map Char.toLower else []

/-- `ext in ASSET_EXT`. -/
def isAssetExt (ext : JSStr) : Bool :=
  (ASSET_EXT.find? (fun p => p.1 == ext)).isSome

/-- `ASSET_EXT[ext]` (defaulting arbitrarily; only used when present). -/
def contentTypeOf (ext : JSStr) : String :=
  ((ASSET_EXT.find? (fun p => p.1 == ext)).map (fun p => p.2)).getD ""

/-- Response bodies distinguished by the handler. -/
inductive HBody
  | assetData (data : JSStr) (contentType : String)
  | docHtml (markdown : JSStr)
  | notFoundPage
  | notFoundText
  | unauthorizedText

/-- Observable outcome of a document/asset request: status, body, and the
paths passed to filesystem resolution operations for this request (the
access-rules file read happens earlier, on a fixed path independent of the
request name, and is not part of name resolution). -/
structure HttpResult where
  status : Nat
  body : HBody
  fsPaths : List JSStr

/-- The document/asset portion of `handler` in server.ts, for a decoded path
that is not "/", "/ws" or "/chat"; `name = path.slice(1)`.  In source order:
the asset branch fires when the extension is allow-listed and the name has
no separator and no null byte; otherwise the document branch rejects names
with separators or null bytes (404), applies `canAccess` (401), and resolves
`name + ".md"` confined to the document root (404 on any failure).  The
document branch uses the own-property `canAccess`; at a slug naming an
`Object.prototype` property the program diverges per `canAccessJS` (false,
hence 401, for a missing token; a thrown TypeError for a supplied one), and
the claims about `handlePath` use `canAccess` only on the side where it
coincides with the program. -/
def handlePath (fs : FS) (docsDir : JSStr) (rules : AccessRules)
    (token : Option String) (name : JSStr) : HttpResult :=
  let ext := extOf name
  if isAssetExt ext && !(name.contains '/') && !(name.contains '\x00') then
    match resolveRead fs docsDir (joinP docsDir name) with
    | (some data, ops) => ⟨200, HBody.assetData data (contentTypeOf ext), ops⟩
    | (none, ops) => ⟨404, HBody.notFoundText, ops⟩
  else
    if name.contains '/' || name.contains '\x00' then
      ⟨404, HBody.notFoundPage, []⟩
    else if !(canAccess (String.mk name) token rules) then
      ⟨401, HBody.unauthorizedText, []⟩
    else
      match resolveRead fs docsDir (joinP docsDir (name ++ ".md".data)) with
      | (some md, ops) => ⟨200, HBody.docHtml md, ops⟩
      | (none, ops) => ⟨404, HBody.notFoundPage, ops⟩

/-- Core of C1: when `realpath` maps the candidate and the document root to
canonical paths such that the candidate is not a strict descendant of the
root, the confinement check fails and resolution yields nothing. -/
theorem resolveRead_not_descendant (fs : FS) (docsDir cand : JSStr)
    (r d : List JSStr) (hr : SlashFreeComps r) (hd : SlashFreeComps d)
    (hrc : fs.realpathFn cand = some (renderPath r))
    (hdc : fs.realpathFn docsDir = some (renderPath d))
    (hnd : strictDescOf d r = false) :
    (resolveRead fs docsDir cand).1 = none := by
  have hsw : jsStartsWith (renderPath r) (renderPath d ++ ['/']) = false := by
    cases hb : jsStartsWith (renderPath r) (renderPath d ++ ['/']) with
    | false => rfl
    | true =>
      exfalso
      have hb' : isPrefB (renderPath d ++ ['/']) (renderPath r) = true := hb
      have hex : ∃ t, renderPath r = (renderPath d ++ ['/']) ++ t :=
        (isPrefB_iff _ _).mp hb'
      obtain ⟨⟨t, hpre⟩, hne⟩ := render_desc d r hd hr hex
      have h1 : isPrefB d r = true := (isPrefB_iff d r).mpr ⟨t, hpre⟩
      have h2 : (d == r) = false := beq_eq_false_iff_ne.mpr hne
      simp only [strictDescOf, h1, h2] at hnd
      simp at hnd
  simp [resolveRead, hrc, hdc, hsw]

/-- C1: a document or asset request whose candidate path resolves (after
symlink following) to a path that is not a strict descendant of the resolved
document root — including a sibling directory sharing a string prefix with
the root — fails the confinement check and produces a 404 response.  Stated
for the shared resolution core and for both handler branches. -/
theorem claim1_confinement :
    (∀ (fs : FS) (docsDir cand : JSStr) (r d : List JSStr),
       SlashFreeComps r → SlashFreeComps d →
       fs.realpathFn cand = some (renderPath r) →
       fs.realpathFn docsDir = some (renderPath d) →
       strictDescOf d r = false →
       (resolveRead fs docsDir cand).1 = none) ∧
    (∀ (fs : FS) (docsDir : JSStr) (rules : AccessRules) (token : Option String)
       (name : JSStr) (r d : List JSStr),
       isAssetExt (extOf name) = false →
       name.contains '/' = false → name.contains '\x00' = false →
       canAccess (String.mk name) token rules = true →
       SlashFreeComps r → SlashFreeComps d →
       fs.realpathFn (joinP docsDir (name ++ ".md".data)) = some (renderPath r) →
       fs.realpathFn docsDir = some (renderPath d) →
       strictDescOf d r = false →
       (handlePath fs docsDir rules token name).status = 404) ∧
    (∀ (fs : FS) (docsDir : JSStr) (rules : AccessRules) (token : Option String)
       (name : JSStr) (r d : List JSStr),
       isAssetExt (extOf name) = true →
       name.contains '/' = false → name.contains '\x00' = false →
       SlashFreeComps r → SlashFreeComps d →
       fs.realpathFn (joinP docsDir name) = some (renderPath r) →
       fs.realpathFn docsDir = some (renderPath d) →
       strictDescOf d r = false →
       (handlePath fs docsDir rules token name).status = 404) := by
  refine ⟨resolveRead_not_descendant, ?_, ?_⟩
  · intro fs docsDir rules token name r d hax hsep hnul hacc hr hd hrc hdc hnd
    have hrr := resolveRead_not_descendant fs docsDir
      (joinP docsDir (name ++ ".md".data)) r d hr hd hrc hdc hnd
    rcases hrw : resolveRead fs docsDir (joinP docsDir (name ++ ".md".data)) with ⟨o, ops⟩
    have ho : o = none := by rw [← hrr, hrw]
    subst ho
    simp [handlePath, hax, hsep, hnul, hacc, hrw]
    split <;> rfl
  · intro fs docsDir rules token name r d hax hsep hnul hr hd hrc hdc hnd
    have hrr := resolveRead_not_descendant fs docsDir (joinP docsDir name) r d
      hr hd hrc hdc hnd
    rcases hrw : resolveRead fs docsDir (joinP docsDir name) with ⟨o, ops⟩
    have ho : o = none := by rw [← hrr, hrw]
    subst ho
    have h1 : ('/' : Char) ∉ name := by simpa using hsep
    have h2 : ('\x00' : Char) ∉ name := by simpa using hnul
    simp [handlePath, hax, hrw, h1, h2]

/-- Witness for C1 at concrete inputs: a symlink resolving into the sibling
directory /docs-other (sharing the string prefix /docs) is rejected with 404
in both the document branch and the asset branch. -/
theorem claim1_confinement_witness :
    (handlePath
        ⟨fun p => if p == joinP "/docs".data ("evil".data ++ ".md".data)
                  then some (renderPath ["docs-other".data, "evil.md".data])
                  else if p == "/docs".data then some (renderPath ["docs".data])
                  else none,
         fun _ => some "DATA".data⟩
        "/docs".data [] none "evil".data).status = 404 ∧
    (handlePath
        ⟨fun p => if p == joinP "/docs".data "x.png".data
                  then some (renderPath ["docs-other".data, "x.png".data])
                  else if p == "/docs".data then some (renderPath ["docs".data])
                  else none,
         fun _ => some "DATA".data⟩
        "/docs".data [] none "x.png".data).status = 404 :=
  ⟨claim1_confinement.2.1
      ⟨fun p => if p == joinP "/docs".data ("evil".data ++ ".md".data)
                then some (renderPath ["docs-other".data, "evil.md".data])
                else if p == "/docs".data then some (renderPath ["docs".data])
                else none,
       fun _ => some "DATA".data⟩
      "/docs".data [] none "evil".data
      ["docs-other".data, "evil.md".data] ["docs".data]
      (by decide) (by decide) (by decide) (by decide) (by decide) (by decide)
      (by decide) (by decide) (by decide),
   claim1_confinement.2.2
      ⟨fun p => if p == joinP "/docs".data "x.png".data
                then some (renderPath ["docs-other".data, "x.png".data])
                else if p == "/docs".data then some (renderPath ["docs".data])
                else none,
       fun _ => some "DATA".data⟩
      "/docs".data [] none "x.png".data
      ["docs-other".data, "x.png".data] ["docs".data]
      (by decide) (by decide) (by decide) (by decide) (by decide)
      (by decide) (by decide) (by decide)⟩

/-- C5: a document or asset request whose name contains a path separator or
a null byte is answered 404 with no filesystem resolution operation at all
(the trace of paths passed to realpath/readFile for this request is empty;
the access-rules read is on a fixed path independent of the name). -/
theorem claim5_malformed (fs : FS) (docsDir : JSStr) (rules : AccessRules)
    (token : Option String) (name : JSStr)
    (h : name.contains '/' = true ∨ name.contains '\x00' = true) :
    (handlePath fs docsDir rules token name).status = 404 ∧
    (handlePath fs docsDir rules token name).fsPaths = [] ∧
    (handlePath fs docsDir rules token name).body = HBody.notFoundPage := by
  cases h with
  | inl h =>
    have hm : ('/' : Char) ∈ name := by simpa using h
    simp [handlePath, hm]
  | inr h =>
    have hm : ('\x00' : Char) ∈ name := by simpa using h
    simp [handlePath, hm]

/-- Witness for C5: a traversal-shaped name and a null-byte name are both
rejected with 404 and an empty filesystem trace. -/
theorem claim5_malformed_witness :
    ((handlePath ⟨fun _ => none, fun _ => none⟩ "/docs".data [] none
        "../etc/passwd".data).status = 404 ∧
     (handlePath ⟨fun _ => none, fun _ => none⟩ "/docs".data [] none
        "../etc/passwd".data).fsPaths = [] ∧
     (handlePath ⟨fun _ => none, fun _ => none⟩ "/docs".data [] none
        "../etc/passwd".data).body = HBody.notFoundPage) ∧
    ((handlePath ⟨fun _ => none, fun _ => none⟩ "/docs".data [] none
        ("a".data ++ ['\x00'] ++ ".png".data)).status = 404 ∧
     (handlePath ⟨fun _ => none, fun _ => none⟩ "/docs".data [] none
        ("a".data ++ ['\x00'] ++ ".png".data)).fsPaths = []) := by
  have h1 := claim5_malformed ⟨fun _ => none, fun _ => none⟩ "/docs".data [] none
      "../etc/passwd".data (Or.inl (by decide))
  have h2 := claim5_malformed ⟨fun _ => none, fun _ => none⟩ "/docs".data [] none
      ("a".data ++ ['\x00'] ++ ".png".data) (Or.inr (by decide))
  exact ⟨⟨h1.1, h1.2.1, h1.2.2⟩, ⟨h2.1, h2.2.1⟩⟩

/-- C8 (counterexample to the claim as stated): the asset branch serves an
allow-listed image without consulting the access rules.  With rules listing
"x.png" and no token supplied, `canAccess` denies, yet the asset is served
with status 200 rather than 401. -/
theorem claim8_counterexample :
    (handlePath
        ⟨fun p => if p == joinP "/docs".data "x.png".data
                  then some (joinP "/docs".data "x.png".data)
                  else if p == "/docs".data then some "/docs".data else none,
         fun p => if p == joinP "/docs".data "x.png".data
                  then some "IMG".data else none⟩
        "/docs".data [("x.png", ["tok"])] none "x.png".data).status = 200 ∧
    canAccess "x.png" none [("x.png", ["tok"])] = false := by
  exact ⟨by decide, by decide⟩

/-- C8 (amended): asset requests (allow-listed image extension, no separator
or null byte in the name) are served without any access-policy check: the
response is identical for any rules and any token and is never 401; only
single-document requests apply the check, answering 401 when `canAccess`
denies. -/
theorem claim8_assets_bypass_access :
    (∀ (fs : FS) (docsDir name : JSStr) (rules rules' : AccessRules)
       (token token' : Option String),
       isAssetExt (extOf name) = true →
       name.contains '/' = false → name.contains '\x00' = false →
       handlePath fs docsDir rules token name =
         handlePath fs docsDir rules' token' name ∧
       (handlePath fs docsDir rules token name).status ≠ 401) ∧
    (∀ (fs : FS) (docsDir name : JSStr) (rules : AccessRules)
       (token : Option String),
       isAssetExt (extOf name) = false →
       name.contains '/' = false → name.contains '\x00' = false →
       canAccess (String.mk name) token rules = false →
       (handlePath fs docsDir rules token name).status = 401) := by
  constructor
  · intro fs docsDir name rules rules' token token' h1 h2 h3
    have hm1 : ('/' : Char) ∉ name := by simpa using h2
    have hm2 : ('\x00' : Char) ∉ name := by simpa using h3
    rcases hrw : resolveRead fs docsDir (joinP docsDir name) with ⟨o, ops⟩
    cases o with
    | some data =>
      exact ⟨by simp [handlePath, h1, hm1, hm2, hrw],
             by simp [handlePath, h1, hm1, hm2, hrw]⟩
    | none =>
      exact ⟨by simp [handlePath, h1, hm1, hm2, hrw],
             by simp [handlePath, h1, hm1, hm2, hrw]⟩
  · intro fs docsDir name rules token h1 h2 h3 hacc
    have hm1 : ('/' : Char) ∉ name := by simpa using h2
    have hm2 : ('\x00' : Char) ∉ name := by simpa using h3
    simp [handlePath, h1, hacc, hm1, hm2]

/-- Witness for C8 (amended): a concrete asset request is served identically
with and without a denying rule set, and a concrete restricted document
request without a token is answered 401. -/
theorem claim8_assets_bypass_access_witness :
    (handlePath
        ⟨fun p => if p == joinP "/docs".data "x.png".data
                  then some (joinP "/docs".data "x.png".data)
                  else if p == "/docs".data then some "/docs".data else none,
         fun p => if p == joinP "/docs".data "x.png".data
                  then some "IMG".data else none⟩
        "/docs".data [("x.png", ["tok"])] none "x.png".data =
      handlePath
        ⟨fun p => if p == joinP "/docs".data "x.png".data
                  then some (joinP "/docs".data "x.png".data)
                  else if p == "/docs".data then some "/docs".data else none,
         fun p => if p == joinP "/docs".data "x.png".data
                  then some "IMG".data else none⟩
        "/docs".data [] (some "tok") "x.png".data) ∧
    (handlePath ⟨fun _ => none, fun _ => none⟩ "/docs".data
        [("private", ["tok"])] none "private".data).status = 401 :=
  ⟨(claim8_assets_bypass_access.1
      ⟨fun p => if p == joinP "/docs".data "x.png".data
                then some (joinP "/docs".data "x.png".data)
                else if p == "/docs".data then some "/docs".data else none,
       fun p => if p == joinP "/docs".data "x.png".data
                then some "IMG".data else none⟩
      "/docs".data "x.png".data [("x.png", ["tok"])] [] none (some "tok")
      (by decide) (by decide) (by decide)).1,
   claim8_assets_bypass_access.2 ⟨fun _ => none, fun _ => none⟩ "/docs".data
      "private".data [("private", ["tok"])] none
      (by decide) (by decide) (by decide) (by decide)⟩
